import Mathlib

/-!
Shallow embedding of the core of `lrmichael` (a lock-free Michael-style
superblock allocator, `src/lrmichael.cpp` / `src/lrmichael.h`) and proofs
about the claims on its specification.

Modelling conventions:
* Machine words are `Nat` with explicit truncation where the C bitfields
  or unsigned arithmetic can wrap: the `Anchor` bitfields `avail`/`count`
  are 25 bits (`M25`), `tag` is 12 bits (`M12`), plain `uint64_t`
  arithmetic is mod `M64`.
* Superblock memory is a function `Nat → Nat` mapping a byte address to
  the 64-bit word stored at that address (the code only ever reads and
  writes the first 8 bytes of a block, as a free-list index).
* The tagged pointer `ActiveDescriptor*` (descriptor pointer with the
  low 6 bits holding credits) is modelled as the decoded pair
  `Option (Descriptor × Nat)`; `MakeActive` asserts the encode/decode
  round-trip, so this is a bijective renaming.
* Each atomic CAS loop is embedded as the body of its final, successful
  iteration.  Interference by other threads is made explicit by passing
  the value the shared cell holds at the moment of the CAS as a separate
  argument from the value obtained by the preceding load (for strong
  CAS where the distinction matters); for the weak-CAS retry loops the
  successful iteration simply runs on the value the loop last read.
* Calls with external effects (page map updates, the page provider,
  descriptor retirement, pushes on the per-heap stack of SB_PARTIAL
  descriptors) are recorded in an `Action` trace in program order.
-/

namespace LRM

/-- CREDITS_MAX from `lrmichael.h` (1 << 6). -/
def CREDITS_MAX : Nat := 64

/-- Modulus of the 25-bit `avail` / `count` bitfields of `Anchor`. -/
def M25 : Nat := 2 ^ 25

/-- Modulus of the 12-bit `tag` bitfield of `Anchor`. -/
def M12 : Nat := 2 ^ 12

/-- Modulus of plain `uint64_t` arithmetic. -/
def M64 : Nat := 2 ^ 64

/-- Superblock states, `enum SuperblockState` in `lrmichael.h`. -/
inductive SbState : Type
  | SB_ACTIVE
  | SB_FULL
  | SB_PARTIAL
  | SB_EMPTY
deriving DecidableEq, Repr

export SbState (SB_ACTIVE SB_FULL SB_PARTIAL SB_EMPTY)

/-- The packed 64-bit `Anchor` word: `state` (2 bits), `avail` (25 bits),
`count` (25 bits), `tag` (12 bits).  Fields are stored already truncated
to their widths by the operations below. -/
structure Anchor : Type where
  state : SbState
  avail : Nat
  count : Nat
  tag : Nat
deriving DecidableEq, Repr

/-- The immutable part of a `Descriptor` that the embedded operations
read: superblock base address, block size and block capacity.  The
mutable `anchor` word and the heap links are threaded explicitly. -/
structure Descriptor : Type where
  superblock : Nat
  blockSize : Nat
  maxcount : Nat
deriving DecidableEq, Repr

/-- Externally visible calls made by the embedded operations, recorded
in program order. -/
inductive Action : Type
  | registerDesc
  | unregisterDesc
  | pageFree
  | removeEmptyDesc
  | descRetire
  | heapPushPartialList
deriving DecidableEq, Repr

/-- Result of the small-class branch of `lr_free`: the anchor installed
by the successful CAS, the superblock memory after the intrusive-list
write, and the trace of post-CAS calls. -/
structure FreeResult : Type where
  newAnchor : Anchor
  mem : Nat → Nat
  actions : List Action

/-- The normal (small-class) case of `lr_free`, `src/lrmichael.cpp`
lines 704-760: compute the block index of `ptr`, write the old `avail`
into the block's first word, swing `avail` to the index, do the state
bookkeeping (`SB_FULL → SB_PARTIAL`; `count == maxcount-1 → SB_EMPTY`,
else `++count`), and afterwards either tear the superblock down
(`UnregisterDesc`, `PageFree`, `RemoveEmptyDesc` — whose body in
`ListRemoveEmptyDesc` is empty) when the new state is `SB_EMPTY`, or
push the descriptor on the heap's list of SB_PARTIAL descriptors when
the old state was `SB_FULL`.  The anchor CAS loop does not touch `tag`
in this function. -/
def lr_free_small (desc : Descriptor) (mem : Nat → Nat) (oldAnchor : Anchor)
    (ptr : Nat) : FreeResult :=
  let idx := (ptr - desc.superblock) / desc.blockSize
  let p := desc.superblock + idx * desc.blockSize
  let mem' : Nat → Nat := fun a => if a = p then oldAnchor.avail else mem a
  let a1 : Anchor := { oldAnchor with avail := idx % M25 }
  let a2 : Anchor :=
    if oldAnchor.state = SB_FULL then { a1 with state := SB_PARTIAL } else a1
  let newAnchor : Anchor :=
    if oldAnchor.count = desc.maxcount - 1 then { a2 with state := SB_EMPTY }
    else { a2 with count := (a2.count + 1) % M25 }
  let actions : List Action :=
    if newAnchor.state = SB_EMPTY then
      [Action.unregisterDesc, Action.pageFree, Action.removeEmptyDesc]
    else if oldAnchor.state = SB_FULL then [Action.heapPushPartialList]
    else []
  { newAnchor := newAnchor, mem := mem', actions := actions }

/-- Concrete inputs used by counterexamples and witnesses: a two-block
descriptor with 16-byte blocks based at address 0. -/
def desc2 : Descriptor := { superblock := 0, blockSize := 16, maxcount := 2 }

/-- All-zero superblock memory. -/
def mem0 : Nat → Nat := fun _ => 0

/-- C1, counterexample: freeing the last outstanding block of `desc2`
(anchor `{SB_PARTIAL, avail 0, count 1}`, so `count = maxcount - 1`)
drives the anchor to `SB_EMPTY`, yet the trace of `lr_free_small`
contains no `DescRetire` call — the claim that `lr_free` retires the
descriptor in this case is false of the code. -/
theorem c1_free_empty_counterexample :
    (lr_free_small desc2 mem0 { state := SB_PARTIAL, avail := 0, count := 1, tag := 0 }
        16).newAnchor.state = SB_EMPTY ∧
    Action.descRetire ∉
      (lr_free_small desc2 mem0 { state := SB_PARTIAL, avail := 0, count := 1, tag := 0 }
        16).actions := by
  constructor
  · rfl
  · decide

/-- C1, amended: whenever the small-class branch of `lr_free` moves the
anchor to `SB_EMPTY`, its post-CAS trace is exactly `UnregisterDesc`,
`PageFree` (return the superblock to the page provider) and the no-op
best-effort `RemoveEmptyDesc`; it never calls `DescRetire` — the
descriptor is retired lazily, later, by `MallocFromPartial` when it
pops the `SB_EMPTY` descriptor. -/
theorem c1_free_empty_actions (desc : Descriptor) (mem : Nat → Nat)
    (oldAnchor : Anchor) (ptr : Nat)
    (h : (lr_free_small desc mem oldAnchor ptr).newAnchor.state = SB_EMPTY) :
    (lr_free_small desc mem oldAnchor ptr).actions =
      [Action.unregisterDesc, Action.pageFree, Action.removeEmptyDesc] ∧
    Action.descRetire ∉ (lr_free_small desc mem oldAnchor ptr).actions := by
  unfold lr_free_small at h ⊢
  simp only at h ⊢
  rw [if_pos h]
  refine ⟨rfl, ?_⟩
  decide

/-- C1, witness for `c1_free_empty_actions` at the concrete input of the
counterexample. -/
theorem c1_free_empty_actions_witness :
    (lr_free_small desc2 mem0 { state := SB_PARTIAL, avail := 0, count := 1, tag := 0 }
        16).actions =
      [Action.unregisterDesc, Action.pageFree, Action.removeEmptyDesc] ∧
    Action.descRetire ∉
      (lr_free_small desc2 mem0 { state := SB_PARTIAL, avail := 0, count := 1, tag := 0 }
        16).actions :=
  c1_free_empty_actions desc2 mem0
    { state := SB_PARTIAL, avail := 0, count := 1, tag := 0 } 16 (by rfl)

/-- Result of `UpdateActive`: the value of `heap.active` after the call,
whether the strong CAS installed the new active, the anchor after the
failure-path CAS loop (unchanged on success), and whether the descriptor
was pushed on the heap's list of SB_PARTIAL descriptors. -/
structure UpdateActiveResult : Type where
  active : Option (Descriptor × Nat)
  installed : Bool
  newAnchor : Anchor
  pushedToPartialList : Bool
deriving Repr

/-- UpdateActive, `src/lrmichael.cpp` lines 178-203.  `activeAtLoad` is
the value `heap->active.load()` returns; `activeAtCas` is the value the
cell holds when the strong CAS executes (they differ exactly when
another thread wrote `heap.active` in between).  The CAS comparand is
`activeAtLoad` — the value just loaded, not null — so the CAS succeeds
whenever the cell still holds `activeAtLoad`, and on success installs
`MakeActive(desc, credits - 1)`.  On failure the anchor CAS loop adds
`credits` back to `count` (25-bit field) and sets `state = SB_PARTIAL`
(`tag` untouched), then `HeapPushPartial(desc)`. -/
def UpdateActive (activeAtLoad activeAtCas : Option (Descriptor × Nat))
    (anchorAtCas : Anchor) (desc : Descriptor) (credits : Nat) :
    UpdateActiveResult :=
  if activeAtCas = activeAtLoad then
    { active := some (desc, credits - 1), installed := true,
      newAnchor := anchorAtCas, pushedToPartialList := false }
  else
    { active := activeAtCas, installed := false,
      newAnchor := { anchorAtCas with
                      count := (anchorAtCas.count + credits) % M25,
                      state := SB_PARTIAL },
      pushedToPartialList := true }

/-- A second two-block descriptor, distinct from `desc2`, standing for a
different superblock installed as active by another thread. -/
def desc2' : Descriptor := { superblock := 4096, blockSize := 16, maxcount := 2 }

/-- C2, failing input: `heap.active` holds the non-null tagged pointer
`(desc2', 0)` both at the load and at the strong CAS.  The claim (and
the spec, following Michael's algorithm) says the install happens only
when `heap.active` was null at the CAS; the code compares against the
loaded value instead, so the CAS succeeds and silently overwrites the
other thread's active descriptor with `(desc, credits-1)`, and the
failure path (credits returned to the anchor, push on the list of
SB_PARTIAL descriptors) never runs. -/
theorem c2_updateactive_installs_over_nonnull :
    (some (desc2', 0) : Option (Descriptor × Nat)) ≠ none ∧
    UpdateActive (some (desc2', 0)) (some (desc2', 0))
        { state := SB_ACTIVE, avail := 0, count := 0, tag := 0 } desc2 2 =
      { active := some (desc2, 1), installed := true,
        newAnchor := { state := SB_ACTIVE, avail := 0, count := 0, tag := 0 },
        pushedToPartialList := false } := by
  constructor
  · intro h
    cases h
  · rfl

/-- errno value EINVAL (not produced anywhere by the code). -/
def EINVAL : Nat := 22

/-- errno value ENOMEM, returned by `lr_posix_memalign` when the inner
malloc fails. -/
def ENOMEM : Nat := 12

/-- Modelled from the spec: `ALIGN_ADDR` lives in `defines.h`, which is
not under `src/`; per the spec it rounds the pointer up to the next
multiple of the alignment. -/
def alignAddr (ptr alignment : Nat) : Nat :=
  ((ptr + alignment - 1) / alignment) * alignment

/-- Result of `lr_posix_memalign`: the returned error code and the
pointer written through `memptr` (none when the call fails). -/
structure MemalignResult : Type where
  code : Nat
  out : Option Nat
deriving DecidableEq, Repr

/-- lr_posix_memalign, `src/lrmichael.cpp` lines 600-627.  `malloc` is
the inner `malloc` call, modelled as a function from the requested size
to an optional block address.  The code overallocates
`max(alignment, size) * 2` bytes, returns `ENOMEM` if that fails,
otherwise aligns the pointer up and returns 0.  There is no validation
of `alignment` anywhere (the page-map patching for aligned large
allocations has no bearing on the return value and is not modelled). -/
def lr_posix_memalign (alignment size : Nat) (malloc : Nat → Option Nat) :
    MemalignResult :=
  match malloc ((max alignment size * 2) % M64) with
  | none => { code := ENOMEM, out := none }
  | some p => { code := 0, out := some (alignAddr p alignment) }

/-- C3, counterexample: alignment 3 is not a power of two, yet when the
inner malloc succeeds `lr_posix_memalign` returns 0, not `EINVAL`. -/
theorem c3_memalign_no_einval_counterexample :
    (¬ ∃ k : Nat, (3 : Nat) = 2 ^ k) ∧
    (lr_posix_memalign 3 8 (fun _ => some 64)).code = 0 ∧
    (0 : Nat) ≠ EINVAL := by
  refine ⟨?_, rfl, by decide⟩
  rintro ⟨k, hk⟩
  match k, hk with
  | 0, hk => simp at hk
  | 1, hk => simp at hk
  | (n + 2), hk =>
      have h4 : 4 ≤ 2 ^ (n + 2) := by
        calc 4 = 2 ^ 2 := by norm_num
        _ ≤ 2 ^ (n + 2) := Nat.pow_le_pow_right (by norm_num) (by omega)
      omega

/-- C3, amended: `lr_posix_memalign` performs no alignment validation
and never returns `EINVAL`; for every alignment — power of two or not —
it returns `ENOMEM` exactly when the inner malloc fails and 0
otherwise. -/
theorem c3_memalign_codes (alignment size : Nat) (malloc : Nat → Option Nat) :
    ((lr_posix_memalign alignment size malloc).code = 0 ∨
      (lr_posix_memalign alignment size malloc).code = ENOMEM) ∧
    (lr_posix_memalign alignment size malloc).code ≠ EINVAL := by
  cases hm : malloc ((max alignment size * 2) % M64) with
  | none => simp [lr_posix_memalign, hm, EINVAL, ENOMEM]
  | some p => simp [lr_posix_memalign, hm, EINVAL]

/-- Result of the block-pop half of `MallocFromActive`: the block
address returned, the anchor installed by the successful CAS, and the
credits later passed to `UpdateActive` (0 means `UpdateActive` is not
called, since the call is guarded by `credits > 0`). -/
structure MallocFromActivePopResult : Type where
  ptr : Nat
  newAnchor : Anchor
  updateCredits : Nat
deriving Repr

/-- The anchor CAS loop of `MallocFromActive`, `src/lrmichael.cpp` lines
123-171, run for the reservation decoded as `(desc, oldCredits)`:
compute `ptr = superblock + avail * blockSize`, read the next free index
from the block's first word, swing `avail` to it (truncated to the
25-bit field) and bump `tag` (12-bit field).  When the reservation
consumed the last credit (`oldCredits == 0`): if `count == 0` the
superblock is used up and `state` becomes `SB_FULL`; otherwise
`credits = min(count, CREDITS_MAX)` is carved out of `count` and later
installed back through `UpdateActive`. -/
def MallocFromActivePop (desc : Descriptor) (mem : Nat → Nat)
    (oldAnchor : Anchor) (oldCredits : Nat) : MallocFromActivePopResult :=
  let ptr := desc.superblock + oldAnchor.avail * desc.blockSize
  let next := mem ptr
  let base : Anchor :=
    { oldAnchor with avail := next % M25, tag := (oldAnchor.tag + 1) % M12 }
  if oldCredits = 0 then
    if oldAnchor.count = 0 then
      { ptr := ptr, newAnchor := { base with state := SB_FULL },
        updateCredits := 0 }
    else
      let credits := min oldAnchor.count CREDITS_MAX
      { ptr := ptr, newAnchor := { base with count := oldAnchor.count - credits },
        updateCredits := credits }
  else
    { ptr := ptr, newAnchor := base, updateCredits := 0 }

/-- C4: on the last credit (`oldCredits = 0`), `MallocFromActive`
returns the block at `superblock + oldAnchor.avail * blockSize`,
advances `avail` to the index stored in that block's first word, and
either marks the anchor `SB_FULL` (when `count = 0`, no `UpdateActive`)
or reserves `credits = min(count, CREDITS_MAX)`, subtracts them from
`count`, and reinstalls the descriptor as active with those credits via
`UpdateActive`. -/
theorem c4_malloc_from_active_last_credit (desc : Descriptor)
    (mem : Nat → Nat) (oldAnchor : Anchor)
    (hmem : mem (desc.superblock + oldAnchor.avail * desc.blockSize) < M25) :
    (MallocFromActivePop desc mem oldAnchor 0).ptr =
      desc.superblock + oldAnchor.avail * desc.blockSize ∧
    (MallocFromActivePop desc mem oldAnchor 0).newAnchor.avail =
      mem (desc.superblock + oldAnchor.avail * desc.blockSize) ∧
    (if oldAnchor.count = 0 then
      (MallocFromActivePop desc mem oldAnchor 0).newAnchor.state = SB_FULL ∧
      (MallocFromActivePop desc mem oldAnchor 0).updateCredits = 0
    else
      (MallocFromActivePop desc mem oldAnchor 0).updateCredits =
        min oldAnchor.count CREDITS_MAX ∧
      0 < (MallocFromActivePop desc mem oldAnchor 0).updateCredits ∧
      (MallocFromActivePop desc mem oldAnchor 0).newAnchor.count =
        oldAnchor.count -
          (MallocFromActivePop desc mem oldAnchor 0).updateCredits) := by
  unfold MallocFromActivePop
  simp only [if_pos rfl]
  by_cases h : oldAnchor.count = 0
  · rw [if_pos h, if_pos h]
    exact ⟨rfl, Nat.mod_eq_of_lt hmem, rfl, rfl⟩
  · rw [if_neg h, if_neg h]
    refine ⟨rfl, Nat.mod_eq_of_lt hmem, rfl, ?_, rfl⟩
    have h1 : 0 < oldAnchor.count := Nat.pos_of_ne_zero h
    have h2 : 0 < CREDITS_MAX := by decide
    exact lt_min h1 h2

/-- C4, witness for `c4_malloc_from_active_last_credit` at a concrete
input: a four-block descriptor, anchor `{SB_ACTIVE, avail 2, count 3}`,
memory holding index 1 everywhere. -/
theorem c4_malloc_from_active_last_credit_witness :
    ((fun _ => 1) : Nat → Nat)
        ({ superblock := 0, blockSize := 16, maxcount := 4 : Descriptor}.superblock +
          ({ state := SB_ACTIVE, avail := 2, count := 3, tag := 0 : Anchor}).avail *
          ({ superblock := 0, blockSize := 16, maxcount := 4 : Descriptor}).blockSize) < M25 ∧
    ((MallocFromActivePop { superblock := 0, blockSize := 16, maxcount := 4 }
        (fun _ => 1) { state := SB_ACTIVE, avail := 2, count := 3, tag := 0 } 0).ptr = 32 ∧
      (MallocFromActivePop { superblock := 0, blockSize := 16, maxcount := 4 }
        (fun _ => 1) { state := SB_ACTIVE, avail := 2, count := 3, tag := 0 } 0).newAnchor.avail = 1) := by
  constructor
  · decide
  · have h := c4_malloc_from_active_last_credit
      { superblock := 0, blockSize := 16, maxcount := 4 } (fun _ => 1)
      { state := SB_ACTIVE, avail := 2, count := 3, tag := 0 } (by decide)
    exact ⟨h.1, h.2.1⟩

/-- One iteration of the superblock formatting loop of
`MallocFromNewSB`: store the index `idx + 1` into the first word of
block `idx` (`*(uint64_t*)(superblock + idx * blockSize) = idx + 1`). -/
def wr (sb bs : Nat) (m : Nat → Nat) (idx : Nat) : Nat → Nat :=
  fun a => if a = sb + idx * bs then idx + 1 else m a

/-- The formatting loop of `MallocFromNewSB`, `src/lrmichael.cpp` lines
338-340: `for (idx = 1; idx < maxcount - 1; ++idx)` writes `idx + 1`
into block `idx`, i.e. blocks `1 .. maxcount - 2`. -/
def formatSB (sb bs maxcount : Nat) (mem : Nat → Nat) : Nat → Nat :=
  (List.range' 1 (maxcount - 2)).foldl (wr sb bs) mem

theorem foldl_wr_not_written (sb bs : Nat) :
    ∀ (l : List Nat) (m : Nat → Nat) (a : Nat),
      (∀ i ∈ l, a ≠ sb + i * bs) → l.foldl (wr sb bs) m a = m a := by
  intro l
  induction l with
  | nil => intro m a _; rfl
  | cons j t ih =>
      intro m a h
      rw [List.foldl_cons, ih (wr sb bs m j) a
        (fun i hi => h i (List.mem_cons_of_mem _ hi))]
      simp only [wr, if_neg (h j (List.mem_cons_self _ _))]

theorem foldl_wr_written (sb bs i : Nat) (hbs : 1 ≤ bs) :
    ∀ (l : List Nat) (m : Nat → Nat), i ∈ l → l.Nodup →
      l.foldl (wr sb bs) m (sb + i * bs) = i + 1 := by
  intro l
  induction l with
  | nil => intro m hi _; cases hi
  | cons j t ih =>
      intro m hi hnd
      rw [List.foldl_cons]
      rcases List.mem_cons.mp hi with h | h
      · subst h
        have hnotin : i ∉ t := (List.nodup_cons.mp hnd).1
        rw [foldl_wr_not_written sb bs t (wr sb bs m i) (sb + i * bs) ?_]
        · simp [wr]
        · intro k hk hcontra
          have h1 : i * bs = k * bs := Nat.add_left_cancel hcontra
          have h2 : i = k := Nat.eq_of_mul_eq_mul_right hbs h1
          exact hnotin (h2 ▸ hk)
      · exact ih (wr sb bs m j) h (List.nodup_cons.mp hnd).2

/-- Result of the construction part of `MallocFromNewSB`: the anchor
stored into the fresh descriptor, the superblock memory after
formatting, the credit reservation, and the credits field of the
prepared `newActive = MakeActive(desc, credits - 1)`. -/
structure NewSBInit : Type where
  anchor : Anchor
  mem : Nat → Nat
  credits : Nat
  activeCredits : Nat

/-- The construction part of `MallocFromNewSB`, `src/lrmichael.cpp`
lines 323-355: format blocks `1 .. maxcount-2` as an intrusive list
(block 0 is the caller's handout, the last block's link is left
unwritten), reserve `credits = min(maxcount - 1, CREDITS_MAX)`, prepare
`newActive = (desc, credits - 1)` and the anchor
`{avail = 1, count = maxcount - 1 - credits, state = SB_ACTIVE,
tag = 0}` (`count` truncated to its 25-bit field). -/
def MallocFromNewSB_init (desc : Descriptor) (mem : Nat → Nat) : NewSBInit :=
  let credits := min (desc.maxcount - 1) CREDITS_MAX
  { anchor := { state := SB_ACTIVE, avail := 1,
                count := (desc.maxcount - 1 - credits) % M25, tag := 0 },
    mem := formatSB desc.superblock desc.blockSize desc.maxcount mem,
    credits := credits,
    activeCredits := credits - 1 }

/-- The install part of `MallocFromNewSB`, `src/lrmichael.cpp` lines
357-377: `RegisterDesc`, then try the strong CAS
`heap.active: activeAtLoad → newActive` — skipped (and treated as
failed) when the loaded value is already non-null.  On failure:
`UnregisterDesc`, `PageFree(superblock)`, `DescRetire`, return null; on
success return block 0 (`superblock`).  Returns the block pointer and
the trace of external calls. -/
def MallocFromNewSB_install (desc : Descriptor)
    (activeAtLoad activeAtCas : Option (Descriptor × Nat)) :
    Option Nat × List Action :=
  if activeAtLoad ≠ none ∨ activeAtCas ≠ activeAtLoad then
    (none, [Action.registerDesc, Action.unregisterDesc, Action.pageFree,
            Action.descRetire])
  else
    (some desc.superblock, [Action.registerDesc])

/-- C5: when the install CAS of `MallocFromNewSB` fails (the heap
already has an active descriptor at the load, or the cell changed
before the CAS), the function unregisters the descriptor from the page
map, returns the superblock's pages via `PageFree`, retires the
descriptor, and returns null. -/
theorem c5_new_sb_install_failure (desc : Descriptor)
    (activeAtLoad activeAtCas : Option (Descriptor × Nat))
    (h : activeAtLoad ≠ none ∨ activeAtCas ≠ activeAtLoad) :
    MallocFromNewSB_install desc activeAtLoad activeAtCas =
      (none, [Action.registerDesc, Action.unregisterDesc, Action.pageFree,
              Action.descRetire]) := by
  unfold MallocFromNewSB_install
  rw [if_pos h]

/-- C5, witness for `c5_new_sb_install_failure`: another thread's
descriptor is already installed as active at the load. -/
theorem c5_new_sb_install_failure_witness :
    ((some (desc2', 0) : Option (Descriptor × Nat)) ≠ none ∨
      (none : Option (Descriptor × Nat)) ≠ some (desc2', 0)) ∧
    MallocFromNewSB_install desc2 (some (desc2', 0)) none =
      (none, [Action.registerDesc, Action.unregisterDesc, Action.pageFree,
              Action.descRetire]) :=
  ⟨Or.inl (by decide), c5_new_sb_install_failure desc2 (some (desc2', 0)) none
    (Or.inl (by decide))⟩

/-- C6: after `MallocFromNewSB_init` formats a fresh superblock, block
`i` stores `i + 1` for every `1 ≤ i ≤ maxcount - 2`, block 0 and the
final block `maxcount - 1` are untouched, and the anchor is
`{avail = 1, count = maxcount - 1 - credits, state = SB_ACTIVE,
tag = 0}` with `credits = min(maxcount - 1, CREDITS_MAX)`. -/
theorem c6_new_sb_format (desc : Descriptor) (mem : Nat → Nat) (i : Nat)
    (hbs : 1 ≤ desc.blockSize) (hmc : desc.maxcount ≤ M25)
    (hi1 : 1 ≤ i) (hi2 : i ≤ desc.maxcount - 2) :
    (MallocFromNewSB_init desc mem).mem
        (desc.superblock + i * desc.blockSize) = i + 1 ∧
    (MallocFromNewSB_init desc mem).mem desc.superblock =
      mem desc.superblock ∧
    (MallocFromNewSB_init desc mem).mem
        (desc.superblock + (desc.maxcount - 1) * desc.blockSize) =
      mem (desc.superblock + (desc.maxcount - 1) * desc.blockSize) ∧
    (MallocFromNewSB_init desc mem).credits =
      min (desc.maxcount - 1) CREDITS_MAX ∧
    (MallocFromNewSB_init desc mem).anchor =
      { state := SB_ACTIVE, avail := 1,
        count := desc.maxcount - 1 - (MallocFromNewSB_init desc mem).credits,
        tag := 0 } := by
  have hM : M25 = 33554432 := by norm_num [M25]
  refine ⟨?_, ?_, ?_, rfl, ?_⟩
  · show formatSB desc.superblock desc.blockSize desc.maxcount mem _ = i + 1
    unfold formatSB
    refine foldl_wr_written desc.superblock desc.blockSize i hbs _ mem ?_
      (List.nodup_range' _ _)
    rw [List.mem_range'_1]
    omega
  · show formatSB desc.superblock desc.blockSize desc.maxcount mem _ = _
    unfold formatSB
    refine foldl_wr_not_written desc.superblock desc.blockSize _ mem _ ?_
    intro k hk hcontra
    rw [List.mem_range'_1] at hk
    have hkpos : 1 ≤ k * desc.blockSize := Nat.mul_pos hk.1 hbs
    omega
  · show formatSB desc.superblock desc.blockSize desc.maxcount mem _ = _
    unfold formatSB
    refine foldl_wr_not_written desc.superblock desc.blockSize _ mem _ ?_
    intro k hk hcontra
    rw [List.mem_range'_1] at hk
    have h1 : (desc.maxcount - 1) * desc.blockSize = k * desc.blockSize :=
      Nat.add_left_cancel hcontra
    have h2 : desc.maxcount - 1 = k := Nat.eq_of_mul_eq_mul_right hbs h1
    omega
  · have hlt : desc.maxcount - 1 - min (desc.maxcount - 1) CREDITS_MAX < M25 := by
      omega
    show ({ state := SB_ACTIVE, avail := 1, count := (desc.maxcount - 1 - min (desc.maxcount - 1) CREDITS_MAX) % M25, tag := 0 : Anchor }) = _
    rw [Nat.mod_eq_of_lt hlt]
    rfl

/-- C6, witness for `c6_new_sb_format`: a five-block descriptor with
16-byte blocks at base 0, zeroed memory, at block index `i = 2`. -/
theorem c6_new_sb_format_witness :
    (1 ≤ (16 : Nat) ∧ (5 : Nat) ≤ M25 ∧ 1 ≤ (2 : Nat) ∧ (2 : Nat) ≤ 5 - 2) ∧
    (MallocFromNewSB_init { superblock := 0, blockSize := 16, maxcount := 5 }
        mem0).mem (0 + 2 * 16) = 3 := by
  constructor
  · refine ⟨by decide, ?_, by decide, by decide⟩
    norm_num [M25]
  · have h := c6_new_sb_format
      { superblock := 0, blockSize := 16, maxcount := 5 } mem0 2
      (by decide) (by norm_num [M25]) (by decide) (by decide)
    simpa using h.1

/-- Result of `lr_realloc`: the returned pointer, the `memcpy` call
modelled as `(dst, src, nbytes)` (none when no copy happens), and the
pointer handed to the unconditional `lr_free` call (none stands for
`lr_free(nullptr)`, a no-op). -/
structure ReallocResult : Type where
  ret : Option Nat
  copy : Option (Nat × Nat × Nat)
  freed : Option Nat
deriving DecidableEq, Repr

/-- lr_realloc, `src/lrmichael.cpp` lines 569-587.  `mallocResult` is
what the inner `lr_malloc(size)` returns; `descBlockSize` is the
`blockSize` of the descriptor the page map resolves for `ptr`.  The
code copies `min(size, blockSize)` bytes into the new block only when
both `ptr` and the new block are non-null, then calls `lr_free(ptr)`
unconditionally and returns the new block. -/
def lr_realloc (ptr : Option Nat) (size : Nat) (mallocResult : Option Nat)
    (descBlockSize : Nat) : ReallocResult :=
  { ret := mallocResult,
    copy := match ptr, mallocResult with
      | some p, some q => some (q, p, min size descBlockSize)
      | _, _ => none,
    freed := ptr }

/-- C7: when the inner malloc succeeds, `lr_realloc(p, n)` with `p`
non-null copies exactly `min(n, old blockSize)` bytes from `p` into the
new block and frees `p`; `lr_realloc(null, n)` returns whatever the
inner malloc returns, copies nothing and frees nothing (it acts as
`malloc(n)`). -/
theorem c7_realloc_copy_free :
    (∀ (p q size bs : Nat),
        lr_realloc (some p) size (some q) bs =
          { ret := some q, copy := some (q, p, min size bs), freed := some p }) ∧
    (∀ (size bs : Nat) (mres : Option Nat),
        lr_realloc none size mres bs =
          { ret := mres, copy := none, freed := none }) := by
  constructor
  · intro p q size bs
    rfl
  · intro size bs mres
    cases mres <;> rfl

/-- C10: when the inner malloc fails, `lr_realloc(p, n)` with `p`
non-null still frees `p` and returns null with nothing copied — the old
allocation is not preserved on failure. -/
theorem c10_realloc_frees_old_on_failure (p size bs : Nat) :
    lr_realloc (some p) size none bs =
      { ret := none, copy := none, freed := some p } := by
  rfl

/-- lr_calloc, `src/lrmichael.cpp` lines 548-567.  `allocSize` is the
`uint64_t` product `n * size` (mod `M64`); the guard rejects `n == 0`
or a product whose division by `n` does not give back `size` (overflow
check) by returning null, otherwise the inner malloc runs on
`allocSize`.  (In C the `n == 0` disjunct short-circuits the division;
`Nat` division is total with `x / 0 = 0`, so the embedded guard agrees
with the source on every input.  The `memset` zero-fill of the returned
block has no bearing on any claim and is not modelled.) -/
def lr_calloc (n size : Nat) (malloc : Nat → Option Nat) : Option Nat :=
  if n = 0 ∨ (n * size) % M64 / n ≠ size then none
  else malloc ((n * size) % M64)

/-- C9: `lr_calloc(0, size)` returns null for every `size`, even though
the product `0 * size` does not overflow — the zero-count guard and the
overflow guard share the same early return. -/
theorem c9_calloc_zero_count (size : Nat) (malloc : Nat → Option Nat) :
    lr_calloc 0 size malloc = none := by
  unfold lr_calloc
  rw [if_pos (Or.inl rfl)]

/-- Twos-complement subtraction on the 25-bit `count` bitfield:
`x -= k` stores `(x - k) mod 2^25`. -/
def bf25sub (x k : Nat) : Nat := (x + (M25 - k % M25)) % M25

/-- The reservation CAS loop of `MallocFromPartial`, `src/lrmichael.cpp`
lines 260-288, for an anchor that is not `SB_EMPTY`: reserve one block
for the caller and `credits = min(count - 1, CREDITS_MAX)` blocks for
the active pointer (`count - 1` in `uint64_t`, wrapping mod `M64`),
subtract both from `count` (25-bit bitfield assignments), and set the
state to `SB_ACTIVE` when credits remain, else `SB_FULL`.  Returns the
new anchor and the reserved credits. -/
def MallocFromPartialReserve (oldAnchor : Anchor) : Anchor × Nat :=
  let credits := min ((oldAnchor.count + (M64 - 1)) % M64) CREDITS_MAX
  let c1 := bf25sub oldAnchor.count 1
  let c2 := bf25sub c1 credits
  (({ oldAnchor with count := c2, state := if 0 < credits then SB_ACTIVE else SB_FULL }), credits)

/-- C8: the anchor's `count` never exceeds `maxcount - 1` across the
anchor updates of the pipeline: (1) the free path either transitions to
`SB_EMPTY` at `count = maxcount - 1` without touching `count` or
increments a strictly smaller `count`; (2) the credit reservation of
`MallocFromPartial` only shrinks `count`; (3) a fresh superblock starts
with `count = maxcount - 1 - credits`; (4) `UpdateActive`'s failure
path adds back only credits previously carved out of the same anchor
(`count + credits ≤ maxcount - 1`). -/
theorem c8_count_le_maxcount_sub_one :
    (∀ (desc : Descriptor) (mem : Nat → Nat) (oldAnchor : Anchor) (ptr : Nat),
        oldAnchor.count ≤ desc.maxcount - 1 → desc.maxcount ≤ M25 →
        (lr_free_small desc mem oldAnchor ptr).newAnchor.count ≤
          desc.maxcount - 1) ∧
    (∀ (oldAnchor : Anchor) (maxcount : Nat),
        1 ≤ oldAnchor.count → oldAnchor.count ≤ maxcount - 1 →
        maxcount ≤ M25 →
        (MallocFromPartialReserve oldAnchor).1.count ≤ maxcount - 1) ∧
    (∀ (desc : Descriptor) (mem : Nat → Nat),
        desc.maxcount ≤ M25 →
        (MallocFromNewSB_init desc mem).anchor.count ≤ desc.maxcount - 1) ∧
    (∀ (activeAtLoad activeAtCas : Option (Descriptor × Nat))
        (anchorAtCas : Anchor) (desc : Descriptor) (credits : Nat),
        anchorAtCas.count + credits ≤ desc.maxcount - 1 →
        desc.maxcount ≤ M25 →
        (UpdateActive activeAtLoad activeAtCas anchorAtCas desc
            credits).newAnchor.count ≤ desc.maxcount - 1) := by
  have hM25 : M25 = 33554432 := by norm_num [M25]
  have hM64 : M64 = 18446744073709551616 := by norm_num [M64]
  refine ⟨?_, ?_, ?_, ?_⟩
  · intro desc mem oldAnchor ptr hcount hmax
    unfold lr_free_small
    by_cases hc : oldAnchor.count = desc.maxcount - 1
    · simp only [if_pos hc]
      by_cases hs : oldAnchor.state = SB_FULL <;> simp [hs, hc]
    · simp only [if_neg hc]
      by_cases hs : oldAnchor.state = SB_FULL <;> simp [hs, hM25] <;> omega
  · intro oldAnchor maxcount h1 h2 h3
    show bf25sub (bf25sub oldAnchor.count 1)
        (min ((oldAnchor.count + (M64 - 1)) % M64) CREDITS_MAX) ≤ maxcount - 1
    unfold bf25sub CREDITS_MAX
    simp only [hM25, hM64]
    omega
  · intro desc mem hmax
    show (desc.maxcount - 1 - min (desc.maxcount - 1) CREDITS_MAX) % M25 ≤
      desc.maxcount - 1
    unfold CREDITS_MAX
    simp only [hM25]
    omega
  · intro activeAtLoad activeAtCas anchorAtCas desc credits h1 h2
    unfold UpdateActive
    by_cases hc : activeAtCas = activeAtLoad
    · simp only [if_pos hc]
      show anchorAtCas.count ≤ desc.maxcount - 1
      omega
    · simp only [if_neg hc]
      show (anchorAtCas.count + credits) % M25 ≤ desc.maxcount - 1
      simp only [hM25]
      omega

/-- C8, witness for `c8_count_le_maxcount_sub_one`: each conjunct
instantiated at a concrete in-range input. -/
theorem c8_count_le_maxcount_sub_one_witness :
    ((0 : Nat) ≤ 2 - 1 ∧ (2 : Nat) ≤ M25 ∧ 1 ≤ (2 : Nat) ∧ (2 : Nat) ≤ 4 - 1 ∧
      (4 : Nat) ≤ M25) ∧
    (lr_free_small desc2 mem0 { state := SB_PARTIAL, avail := 0, count := 0, tag := 0 }
        16).newAnchor.count ≤ 2 - 1 ∧
    (MallocFromPartialReserve
        { state := SB_PARTIAL, avail := 0, count := 2, tag := 0 }).1.count ≤ 4 - 1 ∧
    (MallocFromNewSB_init desc2 mem0).anchor.count ≤ 2 - 1 ∧
    (UpdateActive none none { state := SB_PARTIAL, avail := 0, count := 0, tag := 0 }
        desc2 1).newAnchor.count ≤ 2 - 1 := by
  have hM25 : (2 : Nat) ≤ M25 ∧ (4 : Nat) ≤ M25 := by
    constructor <;> norm_num [M25]
  refine ⟨⟨by decide, hM25.1, by decide, by decide, hM25.2⟩, ?_, ?_, ?_, ?_⟩
  · exact c8_count_le_maxcount_sub_one.1 desc2 mem0
      { state := SB_PARTIAL, avail := 0, count := 0, tag := 0 } 16
      (by decide) hM25.1
  · exact c8_count_le_maxcount_sub_one.2.1
      { state := SB_PARTIAL, avail := 0, count := 2, tag := 0 } 4
      (by decide) (by decide) hM25.2
  · exact c8_count_le_maxcount_sub_one.2.2.1 desc2 mem0 hM25.1
  · exact c8_count_le_maxcount_sub_one.2.2.2 none none
      { state := SB_PARTIAL, avail := 0, count := 0, tag := 0 } desc2 1
      (by decide) hM25.1

end LRM
